import Mathlib

/-!
Shallow embedding of the trie-based HTTP router in src/P2/program_7.py.

The Python program defines three classes:
  * RouteTrieNode: a node with a handler, a default_handler, and a dict of
    children keyed by path segment;
  * RouteTrie: a wrapper around the root node, with insert and find walking
    a list of path segments;
  * Router: a facade that splits a path string on the slash character and
    delegates to the trie, with a special case for paths whose split begins
    with two empty segments and a falsy-result fallback to the default
    handler.

Handlers are modelled as strings, exactly as in the program's tests; the
Python dict of children is modelled as an association list with unique keys
(dict assignment replaces the first matching key or appends).  The mutation
in the Python code is rendered as explicit state passing: each operation
returns the updated node/trie/router.  Python's IndexError in
Router.lookup (reading path_list[1] when the split has a single element) is
modelled by returning none from lookup; a normal return is some value.
-/

/-- A trie node: handler, default_handler, and children keyed by segment,
mirroring RouteTrieNode.__init__ in the source. -/
inductive RouteTrieNode : Type where
  | mk : String → String → List (String × RouteTrieNode) → RouteTrieNode

/-- The handler stored on a node. -/
def RouteTrieNode.handler : RouteTrieNode → String
  | .mk h _ _ => h

/-- The default handler stored on a node. -/
def RouteTrieNode.default_handler : RouteTrieNode → String
  | .mk _ d _ => d

/-- The children mapping of a node, as an association list. -/
def RouteTrieNode.children : RouteTrieNode → List (String × RouteTrieNode)
  | .mk _ _ cs => cs

/-- Dictionary read: the value stored under key w, i.e. the Python
expression node.children[path_word] (none when the key is absent). -/
def findChild : List (String × RouteTrieNode) → String → Option RouteTrieNode
  | [], _ => none
  | (k, v) :: rest, w => if k = w then some v else findChild rest w

/-- Dictionary membership test: the Python expression
path_word in node.children. -/
def hasChild (cs : List (String × RouteTrieNode)) (w : String) : Bool :=
  (findChild cs w).isSome

/-- Dictionary assignment node.children[w] = v: replace the first entry
keyed w, or append a new entry when the key is absent. -/
def setChild : List (String × RouteTrieNode) → String → RouteTrieNode → List (String × RouteTrieNode)
  | [], w, v => [(w, v)]
  | (k, c) :: rest, w, v => if k = w then (w, v) :: rest else (k, c) :: setChild rest w v

/-- RouteTrieNode.insert from the source: if the segment is not yet a child
key, add a fresh node whose handler is the supplied value and whose
default_handler is inherited from this node; otherwise leave the node
unchanged. -/
def RouteTrieNode.insert (n : RouteTrieNode) (path_word : String) (handler : String) : RouteTrieNode :=
  match n with
  | .mk h d cs =>
    if hasChild cs path_word then .mk h d cs
    else .mk h d (setChild cs path_word (.mk handler d []))

/-- The loop body of RouteTrie.insert: walk the segment list from the given
node, creating missing children seeded with the current node's
default_handler, and overwrite the final node's handler.  The Python
mutation of shared nodes is rendered by rebuilding the path of nodes that
the loop touches. -/
def trieInsertFrom : RouteTrieNode → List String → String → RouteTrieNode
  | .mk _ d cs, [], handler => .mk handler d cs
  | .mk h d cs, w :: ws, handler =>
    let cs1 := if hasChild cs w then cs else setChild cs w (.mk d d [])
    let child := (findChild cs1 w).getD (.mk d d [])
    .mk h d (setChild cs1 w (trieInsertFrom child ws handler))

/-- The loop of RouteTrie.find: descend into the child for each segment;
if a segment is missing but is the empty string in the last position, stay
at the current node (trailing-slash tolerance); otherwise return none.
After the loop, return the handler of the node reached. -/
def trieFindFrom : RouteTrieNode → List String → Option String
  | n, [] => some n.handler
  | n, w :: ws =>
    match findChild n.children w with
    | some child => trieFindFrom child ws
    | none => if w = "" ∧ ws = [] then some n.handler else none

/-- RouteTrie from the source: a wrapper holding the root node. -/
structure RouteTrie where
  root : RouteTrieNode

/-- RouteTrie.__init__: a root node carrying the root handler and the
default handler. -/
def RouteTrie.new (handler default_handler : String) : RouteTrie :=
  ⟨.mk handler default_handler []⟩

/-- RouteTrie.insert. -/
def RouteTrie.insert (t : RouteTrie) (path_list : List String) (handler : String) : RouteTrie :=
  ⟨trieInsertFrom t.root path_list handler⟩

/-- RouteTrie.find. -/
def RouteTrie.find (t : RouteTrie) (path_list : List String) : Option String :=
  trieFindFrom t.root path_list

/-- Python str.split with separator a single slash, on the character list:
splitting the empty list yields one empty segment, and each slash starts a
new segment. -/
def splitOnSlash : List Char → List (List Char)
  | [] => [[]]
  | c :: rest =>
    if c = '/' then [] :: splitOnSlash rest
    else
      match splitOnSlash rest with
      | [] => [[c]]
      | s :: ss => (c :: s) :: ss

/-- Router from the source: owns exactly one RouteTrie. -/
structure Router where
  routetrie : RouteTrie

/-- Router.__init__. -/
def Router.new (handler default_handler : String) : Router :=
  ⟨RouteTrie.new handler default_handler⟩

/-- Router.split_path: path.split on the slash character, with no trimming
or filtering of empty segments. -/
def Router.split_path (path : String) : List String :=
  (splitOnSlash path.data).map (fun cs => String.mk cs)

/-- Router.add_handler: split the path and insert into the trie. -/
def Router.add_handler (r : Router) (path : String) (handler : String) : Router :=
  ⟨r.routetrie.insert (Router.split_path path) handler⟩

/-- The falsy-result fallback in Router.lookup: Python's `if not handler`
treats both None (no structural match) and the empty string (a falsy
handler value) as absent and returns the root's default_handler. -/
def Router.fallback (r : Router) (found : Option String) : String :=
  match found with
  | none => r.routetrie.root.default_handler
  | some h => if h = "" then r.routetrie.root.default_handler else h

/-- Router.lookup.  The source reads path_list[0] and path_list[1]:
when the split is a single element, comparing path_list[0] to the empty
string succeeds and reading path_list[1] raises IndexError, modelled as
none; when the first two elements are both empty the root's handler is
returned directly; otherwise the trie is consulted and a falsy result is
replaced by the default handler. -/
def Router.lookup (r : Router) (path : String) : Option String :=
  match Router.split_path path with
  | [] => none
  | [x] =>
    if x = "" then none
    else some (r.fallback (r.routetrie.find [x]))
  | x :: y :: rest =>
    if x = "" ∧ y = "" then some r.routetrie.root.handler
    else some (r.fallback (r.routetrie.find (x :: y :: rest)))

/-- A sequence of registrations applied in order. -/
def Router.addAll (r : Router) : List (String × String) → Router
  | [] => r
  | (p, h) :: rest => (r.add_handler p h).addAll rest

/-- The node reached by descending strictly through children for every
segment (no trailing-slash tolerance): the position of a node in the trie. -/
def findNodeFrom : RouteTrieNode → List String → Option RouteTrieNode
  | n, [] => some n
  | n, w :: ws =>
    match findChild n.children w with
    | some child => findNodeFrom child ws
    | none => none

/-- Whether a segment list begins with two empty segments: the guard of the
special case in Router.lookup. -/
def firstTwoEmpty : List String → Bool
  | x :: y :: _ => decide (x = "") && decide (y = "")
  | _ => false

/-- Stateful reading of Router.lookup: the method only reads the trie and
contains no assignment, so the post-state is the receiver unchanged. -/
def Router.lookupS (r : Router) (path : String) : Option String × Router :=
  (r.lookup path, r)

/-! Helper lemmas about the children dictionary, the path splitter, and the
trie walks. -/

theorem findChild_setChild_self (cs : List (String × RouteTrieNode)) (w : String) (v : RouteTrieNode) :
    findChild (setChild cs w v) w = some v := by
  induction cs with
  | nil => simp [setChild, findChild]
  | cons p rest ih =>
    obtain ⟨k, c⟩ := p
    by_cases hk : k = w
    · simp [setChild, hk, findChild]
    · simp [setChild, hk, findChild, ih]

theorem findChild_setChild_ne (cs : List (String × RouteTrieNode)) (w w' : String) (v : RouteTrieNode)
    (hne : w' ≠ w) : findChild (setChild cs w v) w' = findChild cs w' := by
  induction cs with
  | nil =>
    have hwne : ¬ w = w' := fun h => hne h.symm
    simp [setChild, findChild, hwne]
  | cons p rest ih =>
    obtain ⟨k, c⟩ := p
    by_cases hk : k = w
    · subst hk
      have : ¬ k = w' := fun h => hne h.symm
      simp [setChild, findChild, this]
    · simp [setChild, hk, findChild, ih]

theorem splitOnSlash_ne_nil (cs : List Char) : splitOnSlash cs ≠ [] := by
  cases cs with
  | nil => simp [splitOnSlash]
  | cons c rest =>
    by_cases h : c = '/'
    · simp [splitOnSlash, h]
    · simp only [splitOnSlash, if_neg h]
      split <;> simp_all

theorem split_path_ne_nil (path : String) : Router.split_path path ≠ [] := by
  simp [Router.split_path, splitOnSlash_ne_nil]

theorem splitOnSlash_eq_single (cs : List Char) (h : splitOnSlash cs = [[]]) : cs = [] := by
  cases cs with
  | nil => rfl
  | cons c rest =>
    exfalso
    by_cases hc : c = '/'
    · rw [splitOnSlash, if_pos hc] at h
      have hne := splitOnSlash_ne_nil rest
      simp only [List.cons.injEq] at h
      exact hne h.2
    · rw [splitOnSlash, if_neg hc] at h
      rcases he : splitOnSlash rest with _ | ⟨s, ss⟩
      · rw [he] at h; simp at h
      · rw [he] at h; simp at h

theorem split_path_eq_single_iff (path : String) : Router.split_path path = [""] ↔ path = "" := by
  constructor
  · intro h
    unfold Router.split_path at h
    rcases he : splitOnSlash path.data with _ | ⟨s, ss⟩
    · exact absurd he (splitOnSlash_ne_nil _)
    · rw [he] at h
      simp only [List.map_cons, List.cons.injEq, List.map_eq_nil_iff] at h
      obtain ⟨h1, h2⟩ := h
      have hs : s = [] := by
        have := congrArg String.data h1
        simpa using this
      subst hs
      have hss : ss = [] := h2
      subst hss
      have hdata : path.data = [] := splitOnSlash_eq_single _ he
      cases path with
      | mk data =>
        have hd : data = [] := hdata
        subst hd
        rfl
  · intro h
    subst h
    rfl

theorem trieInsertFrom_handler (n : RouteTrieNode) (w : String) (ws : List String) (H : String) :
    (trieInsertFrom n (w :: ws) H).handler = n.handler := by
  cases n; rfl

theorem trieInsertFrom_default (n : RouteTrieNode) (pl : List String) (H : String) :
    (trieInsertFrom n pl H).default_handler = n.default_handler := by
  cases n with
  | mk h d cs => cases pl <;> rfl

theorem add_handler_root_handler (r : Router) (p h : String) :
    ((r.add_handler p h).routetrie.root.handler) = r.routetrie.root.handler := by
  have hne := split_path_ne_nil p
  rcases he : Router.split_path p with _ | ⟨w, ws⟩
  · exact absurd he hne
  · show (trieInsertFrom r.routetrie.root (Router.split_path p) h).handler = _
    rw [he]
    exact trieInsertFrom_handler _ _ _ _

theorem add_handler_root_default (r : Router) (p h : String) :
    ((r.add_handler p h).routetrie.root.default_handler) = r.routetrie.root.default_handler :=
  trieInsertFrom_default _ _ _

theorem addAll_root_handler (regs : List (String × String)) (r : Router) :
    ((r.addAll regs).routetrie.root.handler) = r.routetrie.root.handler := by
  induction regs generalizing r with
  | nil => rfl
  | cons ph rest ih =>
    obtain ⟨p, h⟩ := ph
    show ((r.add_handler p h).addAll rest).routetrie.root.handler = _
    rw [ih, add_handler_root_handler]

theorem addAll_root_default (regs : List (String × String)) (r : Router) :
    ((r.addAll regs).routetrie.root.default_handler) = r.routetrie.root.default_handler := by
  induction regs generalizing r with
  | nil => rfl
  | cons ph rest ih =>
    obtain ⟨p, h⟩ := ph
    show ((r.add_handler p h).addAll rest).routetrie.root.default_handler = _
    rw [ih, add_handler_root_default]

theorem find_insert_same (pl : List String) : ∀ (n : RouteTrieNode) (H : String),
    trieFindFrom (trieInsertFrom n pl H) pl = some H := by
  induction pl with
  | nil =>
    intro n H
    cases n; rfl
  | cons w ws ih =>
    intro n H
    cases n with
    | mk h d cs =>
      simp only [trieInsertFrom, trieFindFrom, RouteTrieNode.children, findChild_setChild_self]
      exact ih _ _

theorem lookup_special (r : Router) (path : String)
    (h : firstTwoEmpty (Router.split_path path) = true) :
    r.lookup path = some r.routetrie.root.handler := by
  rcases he : Router.split_path path with _ | ⟨x, _ | ⟨y, rest⟩⟩
  · rw [he] at h; simp [firstTwoEmpty] at h
  · rw [he] at h; simp [firstTwoEmpty] at h
  · rw [he] at h
    simp only [firstTwoEmpty, Bool.and_eq_true, decide_eq_true_eq] at h
    obtain ⟨hx, hy⟩ := h
    unfold Router.lookup
    rw [he]
    simp [hx, hy]

theorem lookup_find_branch (r : Router) (path : String) (hne : path ≠ "")
    (h2 : firstTwoEmpty (Router.split_path path) = false) :
    r.lookup path = some (r.fallback (r.routetrie.find (Router.split_path path))) := by
  rcases he : Router.split_path path with _ | ⟨x, _ | ⟨y, rest⟩⟩
  · exact absurd he (split_path_ne_nil path)
  · have hx : x ≠ "" := by
      intro hx
      apply hne
      rw [← split_path_eq_single_iff path, he, hx]
    unfold Router.lookup
    rw [he]
    simp [hx]
  · have hxy : ¬ (x = "" ∧ y = "") := by
      intro hxy
      rw [he] at h2
      simp [firstTwoEmpty, hxy.1, hxy.2] at h2
    unfold Router.lookup
    rw [he]
    simp [hxy]

theorem find_of_findNode (pl : List String) : ∀ (n N : RouteTrieNode),
    findNodeFrom n pl = some N → trieFindFrom n pl = some N.handler := by
  induction pl with
  | nil =>
    intro n N h
    simp only [findNodeFrom, Option.some.injEq] at h
    subst h
    rfl
  | cons w ws ih =>
    intro n N h
    simp only [findNodeFrom] at h
    rcases hc : findChild n.children w with _ | child
    · rw [hc] at h; simp at h
    · rw [hc] at h
      simp only [trieFindFrom, hc]
      exact ih _ _ h

theorem find_slash_leaf (pl : List String) : ∀ (n N : RouteTrieNode),
    findNodeFrom n pl = some N → N.children = [] →
    trieFindFrom n (pl ++ [""]) = some N.handler := by
  induction pl with
  | nil =>
    intro n N h hleaf
    simp only [findNodeFrom, Option.some.injEq] at h
    subst h
    simp [trieFindFrom, hleaf, findChild]
  | cons w ws ih =>
    intro n N h hleaf
    simp only [findNodeFrom] at h
    rcases hc : findChild n.children w with _ | child
    · rw [hc] at h; simp at h
    · rw [hc] at h
      simp only [List.cons_append, trieFindFrom, hc]
      exact ih _ _ h hleaf

theorem splitOnSlash_cons (c : Char) (rest : List Char) :
    splitOnSlash (c :: rest) =
      if c = '/' then [] :: splitOnSlash rest
      else match splitOnSlash rest with
        | [] => [[c]]
        | s :: ss => (c :: s) :: ss := rfl

theorem splitOnSlash_append_slash (cs : List Char) :
    splitOnSlash (cs ++ ['/']) = splitOnSlash cs ++ [[]] := by
  induction cs with
  | nil => rfl
  | cons c rest ih =>
    rw [List.cons_append, splitOnSlash_cons, splitOnSlash_cons]
    by_cases hc : c = '/'
    · rw [if_pos hc, if_pos hc, ih, List.cons_append]
    · rw [if_neg hc, if_neg hc, ih]
      rcases he : splitOnSlash rest with _ | ⟨s, ss⟩
      · exact absurd he (splitOnSlash_ne_nil rest)
      · simp only [List.cons_append]

theorem split_path_append_slash (P : String) :
    Router.split_path (P ++ "/") = Router.split_path P ++ [""] := by
  have hdata : (P ++ "/").data = P.data ++ ['/'] := by
    cases P
    rfl
  unfold Router.split_path
  rw [hdata, splitOnSlash_append_slash, List.map_append]
  rfl

theorem firstTwoEmpty_append_empty (pl : List String) (h : firstTwoEmpty pl = false)
    (hne : pl ≠ [""]) : firstTwoEmpty (pl ++ [""]) = false := by
  rcases pl with _ | ⟨x, _ | ⟨y, rest⟩⟩
  · rfl
  · have hx : x ≠ "" := fun hx => hne (by rw [hx])
    simp [firstTwoEmpty, hx]
  · simpa [firstTwoEmpty] using h

theorem hasChild_setChild (cs : List (String × RouteTrieNode)) (w : String) (v : RouteTrieNode) :
    hasChild (setChild cs w v) w = true := by
  simp [hasChild, findChild_setChild_self]

theorem hasChild_false_iff (cs : List (String × RouteTrieNode)) (w : String) :
    hasChild cs w = false ↔ findChild cs w = none := by
  unfold hasChild
  rcases findChild cs w with _ | c <;> simp

theorem setChild_setChild (cs : List (String × RouteTrieNode)) (w : String) (v v' : RouteTrieNode) :
    setChild (setChild cs w v) w v' = setChild cs w v' := by
  induction cs with
  | nil => simp [setChild]
  | cons p rest ih =>
    obtain ⟨k, c⟩ := p
    by_cases hk : k = w
    · simp [setChild, hk]
    · simp [setChild, hk, ih]

theorem trieInsertFrom_cons_def (h d : String) (cs : List (String × RouteTrieNode))
    (w : String) (ws : List String) (H : String) :
    trieInsertFrom (.mk h d cs) (w :: ws) H =
      .mk h d (setChild (if hasChild cs w then cs else setChild cs w (.mk d d []))
        w (trieInsertFrom ((findChild (if hasChild cs w then cs
              else setChild cs w (.mk d d [])) w).getD (.mk d d [])) ws H)) := rfl

/-- Canonical form of one insertion step: the child for the segment is the
existing one, or a fresh node seeded with the default handler. -/
theorem trieInsertFrom_cons_eq (h d : String) (cs : List (String × RouteTrieNode))
    (w : String) (ws : List String) (H : String) :
    trieInsertFrom (.mk h d cs) (w :: ws) H =
      .mk h d (setChild cs w (trieInsertFrom ((findChild cs w).getD (.mk d d [])) ws H)) := by
  rcases hc : findChild cs w with _ | c
  · have hnot : ¬ (hasChild cs w = true) := by simp [hasChild, hc]
    rw [trieInsertFrom_cons_def, if_neg hnot, findChild_setChild_self, Option.getD_some,
      setChild_setChild, Option.getD_none]
  · have hpos : hasChild cs w = true := by simp [hasChild, hc]
    rw [trieInsertFrom_cons_def, if_pos hpos, hc, Option.getD_some]

theorem insert_insert (pl : List String) : ∀ (n : RouteTrieNode) (H1 H2 : String),
    trieInsertFrom (trieInsertFrom n pl H1) pl H2 = trieInsertFrom n pl H2 := by
  induction pl with
  | nil =>
    intro n H1 H2
    cases n
    rfl
  | cons w ws ih =>
    intro n H1 H2
    cases n with
    | mk h d cs =>
      rw [trieInsertFrom_cons_eq, trieInsertFrom_cons_eq, findChild_setChild_self,
        Option.getD_some, setChild_setChild, ih, trieInsertFrom_cons_eq]

/-- Inserting a path into a one-node trie and then finding a proper prefix
of that path reaches a node created implicitly, whose handler is the seeded
default (or the root's own handler when the prefix is empty). -/
theorem insert_prefix_find (ps : List String) : ∀ (w : String) (ws : List String) (H h d : String),
    trieFindFrom (trieInsertFrom (.mk h d []) (ps ++ w :: ws) H) ps =
      some (if ps = [] then h else d) := by
  induction ps with
  | nil =>
    intro w ws H h d
    have h0 : trieFindFrom (trieInsertFrom (RouteTrieNode.mk h d []) (w :: ws) H) [] =
        some (trieInsertFrom (RouteTrieNode.mk h d []) (w :: ws) H).handler := rfl
    rw [List.nil_append, h0, trieInsertFrom_handler]
    simp [RouteTrieNode.handler]
  | cons p ps' ih =>
    intro w ws H h d
    rw [List.cons_append, trieInsertFrom_cons_eq]
    have hfc : findChild ([] : List (String × RouteTrieNode)) p = none := rfl
    rw [hfc, Option.getD_none]
    have hsc : setChild ([] : List (String × RouteTrieNode)) p
        (trieInsertFrom (.mk d d []) (ps' ++ w :: ws) H) =
        [(p, trieInsertFrom (.mk d d []) (ps' ++ w :: ws) H)] := rfl
    rw [hsc]
    have hstep : trieFindFrom
        (RouteTrieNode.mk h d [(p, trieInsertFrom (.mk d d []) (ps' ++ w :: ws) H)]) (p :: ps') =
        trieFindFrom (trieInsertFrom (.mk d d []) (ps' ++ w :: ws) H) ps' := by
      simp [trieFindFrom, RouteTrieNode.children, findChild]
    rw [hstep, ih]
    simp

/-- All nodes reachable from n (at any list of segments) carry d as their
default handler. -/
def uniformDefault (n : RouteTrieNode) (d : String) : Prop :=
  ∀ pl N, findNodeFrom n pl = some N → N.default_handler = d

theorem uniformDefault_root (n : RouteTrieNode) (d : String) (h : uniformDefault n d) :
    n.default_handler = d :=
  h [] n rfl

theorem uniformDefault_child (n : RouteTrieNode) (d : String) (h : uniformDefault n d)
    (w : String) (c : RouteTrieNode) (hc : findChild n.children w = some c) :
    uniformDefault c d := by
  intro pl N hN
  apply h (w :: pl) N
  simp [findNodeFrom, hc, hN]

theorem uniformDefault_leaf (h0 d : String) : uniformDefault (.mk h0 d []) d := by
  intro pl N hN
  cases pl with
  | nil =>
    simp only [findNodeFrom, Option.some.injEq] at hN
    rw [← hN]
    rfl
  | cons w ws =>
    simp [findNodeFrom, RouteTrieNode.children, findChild] at hN

theorem uniformDefault_insert (pl : List String) : ∀ (n : RouteTrieNode) (H d : String),
    uniformDefault n d → uniformDefault (trieInsertFrom n pl H) d := by
  induction pl with
  | nil =>
    intro n H d hu
    cases n with
    | mk h0 d0 cs =>
      intro pl' N hN
      cases pl' with
      | nil =>
        simp only [trieInsertFrom, findNodeFrom, Option.some.injEq] at hN
        rw [← hN]
        show d0 = d
        exact uniformDefault_root _ _ hu
      | cons w ws =>
        apply hu (w :: ws) N
        simpa [trieInsertFrom, findNodeFrom, RouteTrieNode.children] using hN
  | cons w ws ih =>
    intro n H d hu
    cases n with
    | mk h0 d0 cs =>
      rw [trieInsertFrom_cons_eq]
      have hd0 : d0 = d := uniformDefault_root _ _ hu
      have hc0u : uniformDefault ((findChild cs w).getD (.mk d0 d0 [])) d := by
        rcases hfc : findChild cs w with _ | c
        · rw [Option.getD_none, hd0]
          exact uniformDefault_leaf _ _
        · rw [Option.getD_some]
          exact uniformDefault_child _ _ hu w c hfc
      have hXu : uniformDefault (trieInsertFrom ((findChild cs w).getD (.mk d0 d0 [])) ws H) d :=
        ih _ _ _ hc0u
      intro pl' N hN
      cases pl' with
      | nil =>
        simp only [findNodeFrom, Option.some.injEq] at hN
        rw [← hN]
        exact hd0
      | cons w' ws' =>
        by_cases hw : w' = w
        · subst hw
          simp only [findNodeFrom, RouteTrieNode.children, findChild_setChild_self] at hN
          exact hXu ws' N hN
        · apply hu (w' :: ws') N
          simpa [findNodeFrom, RouteTrieNode.children,
            findChild_setChild_ne _ _ _ _ hw] using hN

theorem uniformDefault_new (h d : String) : uniformDefault (Router.new h d).routetrie.root d :=
  uniformDefault_leaf h d

theorem uniformDefault_addAll (regs : List (String × String)) : ∀ (r : Router) (d : String),
    uniformDefault r.routetrie.root d → uniformDefault ((r.addAll regs).routetrie.root) d := by
  induction regs with
  | nil => intro r d hu; exact hu
  | cons ph rest ih =>
    intro r d hu
    obtain ⟨p, h⟩ := ph
    show uniformDefault (((r.add_handler p h).addAll rest).routetrie.root) d
    apply ih
    exact uniformDefault_insert _ _ _ _ hu

/-! Claim theorems. -/

/-- Claim C1, counterexample to the literal statement: the path "/" is a
non-empty string; registering it with handler "slash handler" and looking it
up returns the construction-time root handler instead, because the lookup
special case for a split beginning with two empty segments bypasses the
trie. -/
theorem routerC1_counterexample :
    ((Router.new "root handler" "not found handler").add_handler "/" "slash handler").lookup "/"
      = some "root handler" ∧ ("root handler" : String) ≠ "slash handler" := by
  decide

/-- Claim C1 (amended): for every non-empty registered path P whose split
does not begin with two empty segments and every non-falsy handler H, a
lookup of P right after registering it returns H, whatever was registered
before. -/
theorem routerC1_registered_lookup (r : Router) (P H : String) (hP : P ≠ "")
    (hsp : firstTwoEmpty (Router.split_path P) = false) (hH : H ≠ "") :
    (r.add_handler P H).lookup P = some H := by
  rw [lookup_find_branch _ _ hP hsp]
  have hfind : (r.add_handler P H).routetrie.find (Router.split_path P) = some H :=
    find_insert_same _ _ _
  rw [hfind]
  simp [Router.fallback, hH]

/-- Claim C1 witness: the amended statement at a concrete registration. -/
theorem routerC1_registered_lookup_witness :
    ((Router.new "root handler" "not found handler").add_handler "/home/about" "about handler").lookup "/home/about"
      = some "about handler" :=
  routerC1_registered_lookup (Router.new "root handler" "not found handler")
    "/home/about" "about handler" (by decide) (by decide) (by decide)

/-- Claim C2: after any sequence of registrations, lookup of "/" returns the
construction-time root handler, but lookup of the empty path hits the
IndexError (modelled as none) instead of returning the root handler. -/
theorem routerC2_root_and_empty (h d : String) (regs : List (String × String)) :
    ((Router.new h d).addAll regs).lookup "/" = some h ∧
    ((Router.new h d).addAll regs).lookup "" = none := by
  constructor
  · have h1 : ∀ r : Router, r.lookup "/" = some r.routetrie.root.handler := fun r => rfl
    rw [h1, addAll_root_handler]
    rfl
  · rfl

/-- Claim C3: lookup is total except on the empty path, where the source
reads path_list[1] out of range; the none result characterizes exactly the
empty-string input. -/
theorem routerC3_total_iff_empty (r : Router) (path : String) :
    r.lookup path = none ↔ path = "" := by
  constructor
  · intro h
    rcases he : Router.split_path path with _ | ⟨x, _ | ⟨y, rest⟩⟩
    · exact absurd he (split_path_ne_nil path)
    · unfold Router.lookup at h
      rw [he] at h
      by_cases hx : x = ""
      · rw [← split_path_eq_single_iff path, he, hx]
      · simp [hx] at h
    · unfold Router.lookup at h
      rw [he] at h
      by_cases hxy : x = "" ∧ y = ""
      · simp [hxy.1, hxy.2] at h
      · simp [hxy] at h
  · intro h
    subst h
    rfl

/-- Claim C4, counterexample to the literal statement: on a fresh router the
first split element of "/" (the empty string) is not a child of the root,
yet lookup returns the root handler, not the not-found handler. -/
theorem routerC4_counterexample :
    Router.split_path "/" = ["", ""] ∧
    hasChild (Router.new "root handler" "not found handler").routetrie.root.children "" = false ∧
    (Router.new "root handler" "not found handler").lookup "/" = some "root handler" ∧
    ("root handler" : String) ≠ "not found handler" := by
  decide

/-- Claim C4 (amended): for every non-empty path whose split does not begin
with two empty segments, if the first split element is not a child key of
the root node then lookup returns the configured not-found handler. -/
theorem routerC4_unregistered_first_segment (r : Router) (path : String) (hne : path ≠ "")
    (hsp : firstTwoEmpty (Router.split_path path) = false)
    (hroot : hasChild r.routetrie.root.children ((Router.split_path path).headD "") = false) :
    r.lookup path = some r.routetrie.root.default_handler := by
  rw [lookup_find_branch _ _ hne hsp]
  rcases he : Router.split_path path with _ | ⟨x, xs⟩
  · exact absurd he (split_path_ne_nil path)
  · rw [he] at hroot
    simp only [List.headD_cons] at hroot
    have hchild : findChild r.routetrie.root.children x = none :=
      (hasChild_false_iff _ _).mp hroot
    have hfind : r.routetrie.find (x :: xs) = none := by
      cases xs with
      | nil =>
        have hx : x ≠ "" := by
          intro hx
          exact hne ((split_path_eq_single_iff path).mp (by rw [he, hx]))
        simp [RouteTrie.find, trieFindFrom, hchild, hx]
      | cons x2 rest =>
        simp [RouteTrie.find, trieFindFrom, hchild]
    rw [hfind]
    rfl

/-- Claim C4 witness: the amended statement at a concrete unregistered first
segment. -/
theorem routerC4_unregistered_first_segment_witness :
    ((Router.new "root handler" "not found handler").add_handler "/home/about" "about handler").lookup "zzz"
      = some "not found handler" :=
  routerC4_unregistered_first_segment
    ((Router.new "root handler" "not found handler").add_handler "/home/about" "about handler")
    "zzz" (by decide) (by decide) (by decide)

/-- Claim C5, counterexample to the literal statement: the empty path can be
registered (its node is a leaf, so it has no deeper registered children) and
does not end in a slash, yet lookup of "" followed by a slash returns the
root handler while lookup of "" itself crashes with IndexError (none). -/
theorem routerC5_counterexample :
    ((Router.new "root handler" "not found handler").add_handler "" "empty handler").lookup ("" ++ "/")
      = some "root handler" ∧
    ((Router.new "root handler" "not found handler").add_handler "" "empty handler").lookup ""
      = none := by
  decide

/-- Claim C5 (amended): for every non-empty registered path P not ending in
a slash whose trie node exists and has no children, lookup of P with a
trailing slash appended returns the same value as lookup of P. -/
theorem routerC5_trailing_slash (r : Router) (P : String) (N : RouteTrieNode)
    (hne : P ≠ "") (hlast : P.data.getLast? ≠ some '/')
    (hreg : findNodeFrom r.routetrie.root (Router.split_path P) = some N)
    (hleaf : N.children = []) :
    r.lookup (P ++ "/") = r.lookup P := by
  cases hb : firstTwoEmpty (Router.split_path P) with
  | true =>
    have hsp2 : firstTwoEmpty (Router.split_path (P ++ "/")) = true := by
      rw [split_path_append_slash]
      rcases he : Router.split_path P with _ | ⟨x, _ | ⟨y, rest⟩⟩
      · exact absurd he (split_path_ne_nil P)
      · rw [he] at hb
        simp [firstTwoEmpty] at hb
      · rw [he] at hb
        simpa [firstTwoEmpty, List.cons_append] using hb
    rw [lookup_special _ _ hb, lookup_special _ _ hsp2]
  | false =>
    have hsp2 : Router.split_path (P ++ "/") = Router.split_path P ++ [""] :=
      split_path_append_slash P
    have hne2 : P ++ "/" ≠ "" := by
      intro hc
      have h1 : Router.split_path (P ++ "/") = [""] := by rw [hc]; rfl
      rw [hsp2] at h1
      rcases he : Router.split_path P with _ | ⟨x, xs⟩
      · exact absurd he (split_path_ne_nil P)
      · rw [he] at h1
        simp at h1
    have hftf2 : firstTwoEmpty (Router.split_path (P ++ "/")) = false := by
      rw [hsp2]
      apply firstTwoEmpty_append_empty _ hb
      intro hc
      exact hne ((split_path_eq_single_iff P).mp hc)
    rw [lookup_find_branch _ _ hne2 hftf2, lookup_find_branch _ _ hne hb, hsp2]
    have hf1 : r.routetrie.find (Router.split_path P) = some N.handler :=
      find_of_findNode _ _ _ hreg
    have hf2 : r.routetrie.find (Router.split_path P ++ [""]) = some N.handler :=
      find_slash_leaf _ _ _ hreg hleaf
    rw [hf1, hf2]

/-- Claim C5 witness: the amended statement at the concrete registration of
the program's own test path. -/
theorem routerC5_trailing_slash_witness :
    ((Router.new "root handler" "not found handler").add_handler "/home/about" "about handler").lookup ("/home/about" ++ "/")
      = ((Router.new "root handler" "not found handler").add_handler "/home/about" "about handler").lookup "/home/about" :=
  routerC5_trailing_slash
    ((Router.new "root handler" "not found handler").add_handler "/home/about" "about handler")
    "/home/about" (RouteTrieNode.mk "about handler" "not found handler" [])
    (by decide) (by decide) rfl rfl

/-- Claim C6, counterexample to the literal statement: with only "//a/b"
registered, the path "//a" reaches a node that was created implicitly (the
trie itself would yield the seeded default handler for it), but lookup
returns the root handler instead of the default, through the double-slash
special case. -/
theorem routerC6_counterexample :
    ((Router.new "root handler" "not found handler").add_handler "//a/b" "b handler").routetrie.find (Router.split_path "//a")
      = some "not found handler" ∧
    ((Router.new "root handler" "not found handler").add_handler "//a/b" "b handler").lookup "//a"
      = some "root handler" ∧
    ("root handler" : String) ≠ "not found handler" := by
  decide

/-- Claim C6 (amended): on a fresh router with one registered path Q whose
split strictly extends the split of a non-empty path P that does not begin
with two empty segments, lookup of P returns the trie's default handler
value. -/
theorem routerC6_implicit_intermediate (h d H P Q : String) (ext : List String)
    (hne : P ≠ "") (hsp : firstTwoEmpty (Router.split_path P) = false)
    (hext : ext ≠ []) (hQ : Router.split_path Q = Router.split_path P ++ ext) :
    ((Router.new h d).add_handler Q H).lookup P = some d := by
  rw [lookup_find_branch _ _ hne hsp]
  rcases ext with _ | ⟨w, ws⟩
  · exact absurd rfl hext
  · have hfind : ((Router.new h d).add_handler Q H).routetrie.find (Router.split_path P) =
        some (if Router.split_path P = [] then h else d) := by
      show trieFindFrom (trieInsertFrom (.mk h d []) (Router.split_path Q) H)
        (Router.split_path P) = _
      rw [hQ]
      exact insert_prefix_find _ _ _ _ _ _
    rw [if_neg (split_path_ne_nil P)] at hfind
    rw [hfind]
    have hdef : ((Router.new h d).add_handler Q H).routetrie.root.default_handler = d := by
      rw [add_handler_root_default]
      rfl
    show some (((Router.new h d).add_handler Q H).fallback (some d)) = some d
    have hfb : ((Router.new h d).add_handler Q H).fallback (some d) = d := by
      show (if d = "" then ((Router.new h d).add_handler Q H).routetrie.root.default_handler else d) = d
      by_cases hd : d = ""
      · rw [if_pos hd, hdef]
      · rw [if_neg hd]
    rw [hfb]

/-- Claim C6 witness: the spec's own scenario, where only "/home/about" is
registered and "/home" resolves to the default handler value. -/
theorem routerC6_implicit_intermediate_witness :
    ((Router.new "root handler" "not found handler").add_handler "/home/about" "about handler").lookup "/home"
      = some "not found handler" :=
  routerC6_implicit_intermediate "root handler" "not found handler" "about handler"
    "/home" "/home/about" ["about"] (by decide) (by decide) (by decide) (by decide)

/-- Claim C7: re-inserting a path with a new handler yields exactly the
state a single insertion of the new handler would produce (so only the
terminal node's handler changes and intermediate nodes and sibling subtrees
are untouched), and a subsequent trie find of that path returns the latest
handler. -/
theorem routerC7_overwrite (r : Router) (P H1 H2 : String) :
    (r.add_handler P H1).add_handler P H2 = r.add_handler P H2 ∧
    ((r.add_handler P H1).add_handler P H2).routetrie.find (Router.split_path P) = some H2 := by
  constructor
  · simp only [Router.add_handler, RouteTrie.insert]
    rw [insert_insert]
  · show trieFindFrom (trieInsertFrom (trieInsertFrom r.routetrie.root (Router.split_path P) H1)
      (Router.split_path P) H2) (Router.split_path P) = some H2
    rw [insert_insert]
    exact find_insert_same _ _ _

/-- Claim C8: in every router built by construction followed by any
sequence of registrations, every node reachable in the trie carries the
construction-time default handler as its default_handler. -/
theorem routerC8_default_uniform (h d : String) (regs : List (String × String))
    (pl : List String) (N : RouteTrieNode)
    (hN : findNodeFrom ((Router.new h d).addAll regs).routetrie.root pl = some N) :
    N.default_handler = d :=
  uniformDefault_addAll regs (Router.new h d) d (uniformDefault_new h d) pl N hN

/-- Claim C8 witness: the node at segments "", "home" of a concrete router
carries the construction-time default handler. -/
theorem routerC8_default_uniform_witness :
    (RouteTrieNode.mk "not found handler" "not found handler"
      [("about", RouteTrieNode.mk "about handler" "not found handler" [])]).default_handler
      = "not found handler" :=
  routerC8_default_uniform "root handler" "not found handler"
    [("/home/about", "about handler")] ["", "home"] _ rfl

/-- Claim C9: in the stateful reading of lookup the post-state is the
receiver unchanged (the method performs no assignment), and a second lookup
of the same path on the post-state returns the same result. -/
theorem routerC9_lookup_pure (r : Router) (path : String) :
    (r.lookupS path).2 = r ∧ (r.lookupS path).1 = ((r.lookupS path).2.lookupS path).1 :=
  ⟨rfl, rfl⟩

/-- Claim C10: whenever the split of the path begins with two empty
segments, lookup returns the root node's handler directly, whatever the
registered routes are. -/
theorem routerC10_double_slash_root (r : Router) (path : String) (rest : List String)
    (hsp : Router.split_path path = "" :: "" :: rest) :
    r.lookup path = some r.routetrie.root.handler := by
  apply lookup_special
  rw [hsp]
  simp [firstTwoEmpty]

/-- Claim C10 witness: a double-slash path on a router that registered that
very path still resolves to the root handler. -/
theorem routerC10_double_slash_root_witness :
    ((Router.new "root handler" "not found handler").add_handler "//foo/bar" "foo handler").lookup "//foo/bar"
      = some "root handler" :=
  routerC10_double_slash_root
    ((Router.new "root handler" "not found handler").add_handler "//foo/bar" "foo handler")
    "//foo/bar" ["foo", "bar"] (by decide)

example : Router.split_path "/home/about" = ["", "home", "about"] := by decide
example : Router.split_path "" = [""] := by decide
example : Router.split_path "/" = ["", ""] := by decide
example : ((Router.new "root handler" "not found handler").add_handler "/home/about" "about handler").lookup "/home/about" = some "about handler" := by decide
example : ((Router.new "root handler" "not found handler").add_handler "/home/about" "about handler").lookup "/home" = some "not found handler" := by decide
example : ((Router.new "root handler" "not found handler").add_handler "/home/about" "about handler").lookup "/home/about/" = some "about handler" := by decide
example : ((Router.new "root handler" "not found handler").add_handler "/home/about" "about handler").lookup "/home/about/me" = some "not found handler" := by decide
example : ((Router.new "root handler" "not found handler").add_handler "/home/about" "about handler").lookup "/" = some "root handler" := by decide
example : ((Router.new "root handler" "not found handler").add_handler "/home/about" "about handler").lookup "" = none := by decide
